import Mathlib

/-!
Shallow embedding of the double-entry accounting core of the
ym-constructions-backend repository, and verification of the frozen claims
about it.

Embedded source:
  * `AccountingService` (createJournalEntry, postToGeneralLedger,
    getOrCreateAccount, reverseJournalEntry) from the accounting service file;
  * the `JournalEntry` mongoose model (pre-save balance validation, entry
    number generation, the `reverse` method);
  * the `GeneralLedger` mongoose model (pre-save fiscal hook,
    getAccountBalance, getAccountLedger, getTrialBalance).

Modelling conventions:
  * money amounts are exact rationals (`ℚ`);
  * dates are (year, month, day) triples ordered lexicographically; the
    `createdAt` timestamp of a ledger row is its insertion index into the
    ledger collection (insertion order is creation order);
  * MongoDB object ids are `Nat`;
  * a journal-entry / account document carries `tenantId : Option String`
    holding exactly what the JavaScript code supplies at the corresponding
    creation site (`none` where the code supplies no tenantId);
  * `Model.insertMany` does not run mongoose document `pre('save')`
    middleware, so the fiscal-field hook is modelled as a separate function
    that the `insertMany`-based posting path does not apply;
  * record fields that no verified claim reads (free-text descriptions,
    project references, attachments, audit/approval fields, source-transaction
    references) are omitted from the embedded records;
  * each state-mutating operation returns `Except Err α × State`, the second
    component being the state that remains persisted, so that transactional
    (all-or-nothing) behaviour and its absence are expressible; an
    infrastructure failure of the one explicit transaction inside
    `reverseJournalEntry` is injected through a `failPost` flag.
-/

namespace Acct

/-- Calendar date (year, month 1-12, day), ordered lexicographically.
`new Date(year, 0, 1)` in the source is `⟨year, 1, 1⟩` here, `getFullYear()`
is `.y` and `getMonth() + 1` is `.m`. -/
structure Date where
  y : Nat
  m : Nat
  d : Nat
deriving DecidableEq, Repr

instance : LE Date where
  le a b := a.y < b.y ∨ (a.y = b.y ∧ (a.m < b.m ∨ (a.m = b.m ∧ a.d ≤ b.d)))

instance : LT Date where
  lt a b := a ≤ b ∧ ¬ b ≤ a

theorem Date.le_def (a b : Date) :
    (a ≤ b) = (a.y < b.y ∨ (a.y = b.y ∧ (a.m < b.m ∨ (a.m = b.m ∧ a.d ≤ b.d)))) := rfl

instance : DecidableRel (· ≤ · : Date → Date → Prop) := by
  intro a b
  show Decidable (a ≤ b)
  rw [Date.le_def]
  infer_instance

instance : DecidableRel (· < · : Date → Date → Prop) := by
  intro a b
  show Decidable (a ≤ b ∧ ¬ b ≤ a)
  infer_instance

theorem Date.le_refl (a : Date) : a ≤ a := by
  rw [Date.le_def]; omega

theorem Date.le_trans {a b c : Date} (h₁ : a ≤ b) (h₂ : b ≤ c) : a ≤ c := by
  rw [Date.le_def] at h₁ h₂ ⊢; omega

theorem Date.le_total (a b : Date) : a ≤ b ∨ b ≤ a := by
  rw [Date.le_def, Date.le_def]; omega

theorem Date.le_antisymm {a b : Date} (h₁ : a ≤ b) (h₂ : b ≤ a) : a = b := by
  rw [Date.le_def] at h₁ h₂
  have hy : a.y = b.y ∧ a.m = b.m ∧ a.d = b.d := by omega
  cases a; cases b
  simp only at hy
  simp [hy.1, hy.2.1, hy.2.2]

@[simp] theorem Date.mk_le_mk {y₁ m₁ d₁ y₂ m₂ d₂ : Nat} :
    (⟨y₁, m₁, d₁⟩ : Date) ≤ ⟨y₂, m₂, d₂⟩ ↔
      (y₁ < y₂ ∨ (y₁ = y₂ ∧ (m₁ < m₂ ∨ (m₁ = m₂ ∧ d₁ ≤ d₂)))) := Iff.rfl

theorem Date.not_le {a b : Date} (h : ¬ a ≤ b) : b ≤ a := by
  rcases Date.le_total a b with h' | h'
  · exact absurd h' h
  · exact h'

/-- Account category, the `accountType` enum of the schemas. -/
inductive AcctType where
  | Asset | Liability | Equity | Revenue | Expense
deriving DecidableEq, Repr

/-- Journal-entry lifecycle status. -/
inductive JEStatus where
  | Draft | Posted | Reversed | Cancelled
deriving DecidableEq, Repr

/-- General-ledger row status. -/
inductive GLStatus where
  | Active | Reversed | Cancelled
deriving DecidableEq, Repr

/-- One journal entry line (`JournalEntryLineSchema`): denormalized account
code/name/category plus the debit and credit amounts. -/
structure Line where
  accountCode : String
  accountName : String
  accountType : AcctType
  debit : ℚ
  credit : ℚ
deriving DecidableEq, Repr

/-- A persisted journal entry (`JournalEntrySchema`), restricted to the
fields the claims read. -/
structure JE where
  id : Nat
  tenantId : Option String
  entryNumber : String
  date : Date
  transactionType : String
  lines : List Line
  totalDebit : ℚ
  totalCredit : ℚ
  status : JEStatus
  isPosted : Bool
  postedAt : Option Date
  reversalOf : Option Nat
  reversedBy : Option Nat
  createdBy : String
deriving DecidableEq, Repr

/-- A persisted general-ledger row (`GeneralLedgerSchema`), restricted to the
fields the claims read.  `createdAt` is the insertion index.  `tenantId`,
`fiscalYear` and `fiscalPeriod` are `Option`s because the creating code may
leave them unset. -/
structure GLRow where
  tenantId : Option String
  accountCode : String
  accountName : String
  accountType : AcctType
  date : Date
  journalEntry : Nat
  entryNumber : String
  debit : ℚ
  credit : ℚ
  balance : ℚ
  fiscalYear : Option Nat
  fiscalPeriod : Option Nat
  status : GLStatus
  createdAt : Nat
deriving DecidableEq, Repr

/-- A chart-of-accounts document (`ChartOfAccountSchema`), restricted to the
fields `getOrCreateAccount` reads and writes; `subAccounts` and
`listAccounts` are kept as their lists of codes. -/
structure Account where
  tenantId : Option String
  code : String
  name : String
  accountType : AcctType
  financialComponent : String
  subAccountCodes : List String
  listAccountCodes : List String
deriving DecidableEq, Repr

/-- The persistent store: the journal-entry collection, the general-ledger
collection (in insertion order) and the chart-of-accounts collection,
plus the id counter for new journal entries. -/
structure State where
  entries : List JE
  ledger : List GLRow
  accounts : List Account
  nextId : Nat
deriving DecidableEq, Repr

/-- The empty database. -/
def State.empty : State := ⟨[], [], [], 0⟩

/-- Errors raised by the embedded operations. -/
inductive Err where
  | notBalanced (debits credits : ℚ)
  | tooFewLines
  | negativeAmount
  | bothDebitCredit
  | neitherDebitCredit
  | notFound
  | onlyPostedReversible
  | txnAborted
deriving DecidableEq, Repr

/-- Sum of `line.debit || 0` over the lines, as computed by both
`AccountingService.createJournalEntry` and the model's first pre-save hook. -/
def sumDebits (lines : List Line) : ℚ := (lines.map Line.debit).sum

/-- Sum of `line.credit || 0` over the lines. -/
def sumCredits (lines : List Line) : ℚ := (lines.map Line.credit).sum

/-! ## General Ledger poster (`AccountingService.postToGeneralLedger`) -/

/-- Strict lexicographic comparison on `(date, createdAt)`, the sort key of
the previous-balance lookup (`.sort({ date: -1, createdAt: -1 })`). -/
def keyLt (a b : GLRow) : Prop :=
  a.date ≤ b.date ∧ (¬ b.date ≤ a.date ∨ a.createdAt < b.createdAt)

instance : DecidableRel keyLt := by
  intro a b
  show Decidable (a.date ≤ b.date ∧ (¬ b.date ≤ a.date ∨ a.createdAt < b.createdAt))
  infer_instance

/-- The row returned by
`GeneralLedger.findOne({ accountCode, status: "Active" }).sort({ date: -1, createdAt: -1 })`:
the Active row of the given account code (no tenant filter in the source)
that is greatest under `(date, createdAt)`. -/
def latestActive (code : String) (ledger : List GLRow) : Option GLRow :=
  (ledger.filter (fun r => r.accountCode = code ∧ r.status = GLStatus.Active)).foldl
    (fun best r =>
      match best with
      | none => some r
      | some m => if keyLt m r then some r else some m)
    none

/-- The `previousBalance` of the lookup: the balance of the row found, `0`
if there is none. -/
def previousBalance (code : String) (ledger : List GLRow) : ℚ :=
  match latestActive code ledger with
  | none => 0
  | some r => r.balance

/-- The running-balance increment `postToGeneralLedger` applies for a line:
`debit − credit` for Asset and Expense lines, `credit − debit` for
Liability, Equity and Revenue lines (source lines 88-94). -/
def lineDelta (l : Line) : ℚ :=
  match l.accountType with
  | AcctType.Asset => l.debit - l.credit
  | AcctType.Expense => l.debit - l.credit
  | _ => l.credit - l.debit

/-- The same category-aware increment read off a ledger row. -/
def rowDelta (r : GLRow) : ℚ :=
  match r.accountType with
  | AcctType.Asset => r.debit - r.credit
  | AcctType.Expense => r.debit - r.credit
  | _ => r.credit - r.debit

/-- The ledger row `postToGeneralLedger` builds for one line.  All
previous-balance lookups of one call read the ledger as it was before the
call, because the single `insertMany` happens only after the loop.  The
built object carries no `tenantId`, and `insertMany` does not run the
`pre('save')` fiscal hook, so `fiscalYear`/`fiscalPeriod` stay unset. -/
def mkRow (entry : JE) (ledger : List GLRow) (idx : Nat) (l : Line) : GLRow :=
  { tenantId := none
    accountCode := l.accountCode
    accountName := l.accountName
    accountType := l.accountType
    date := entry.date
    journalEntry := entry.id
    entryNumber := entry.entryNumber
    debit := l.debit
    credit := l.credit
    balance := previousBalance l.accountCode ledger + lineDelta l
    fiscalYear := none
    fiscalPeriod := none
    status := GLStatus.Active
    createdAt := ledger.length + idx }

/-- The batch of rows built by the loop of `postToGeneralLedger`: one row
per line, every previous-balance lookup reading the same pre-call ledger. -/
def mkRows (entry : JE) (ledger : List GLRow) : Nat → List Line → List GLRow
  | _, [] => []
  | idx, l :: rest => mkRow entry ledger idx l :: mkRows entry ledger (idx + 1) rest

/-- `AccountingService.postToGeneralLedger(journalEntry)` as a pure function
on the ledger collection: one new Active row per line, appended in line
order by the single `insertMany`. -/
def postGL (entry : JE) (ledger : List GLRow) : List GLRow :=
  ledger ++ mkRows entry ledger 0 entry.lines

/-- Post a list of already-persisted journal entries in order, starting from
an empty ledger. -/
def postSeq (es : List JE) : List GLRow := es.foldl (fun L e => postGL e L) []

/-- The `GeneralLedgerSchema.pre('save')` hook: derive `fiscalYear` and
`fiscalPeriod` from the row's date.  `Model.insertMany` — the only way the
repository creates ledger rows — does not run document `pre('save')`
middleware, so `postGL` never applies this function. -/
def glFiscalHook (r : GLRow) : GLRow :=
  { r with fiscalYear := some r.date.y, fiscalPeriod := some r.date.m }

/-! ## Journal Entry engine -/

/-- Caller-supplied journal-entry data (`entryData`): the fields
`AccountingService.createJournalEntry` reads from its argument.
`tenantId` is whatever the HTTP caller put in the request body;
`entryNumber` is `""` when absent, as in the schema hook's test. -/
structure EntryData where
  tenantId : Option String
  entryNumber : String
  date : Date
  transactionType : String
  lines : List Line
deriving DecidableEq, Repr

/-- Zero-pad a string on the left to 6 characters
(`String(count + 1).padStart(6, "0")`). -/
def pad6 (s : String) : String :=
  ⟨List.replicate (6 - s.length) '0'⟩ ++ s

/-- The entry number `JE-<year>-<padded sequence>`. -/
def mkEntryNumber (year seq : Nat) : String :=
  "JE-" ++ toString year ++ "-" ++ pad6 (toString seq)

/-- The count used by the entry-number hook:
`countDocuments({ date: { $gte: new Date(year, 0, 1) } })` — all existing
journal entries (any tenant, any status) dated on or after January 1 of
`year`. -/
def countOnOrAfterJan1 (entries : List JE) (year : Nat) : Nat :=
  (entries.filter (fun e => (⟨year, 1, 1⟩ : Date) ≤ e.date)).length

/-- The second `JournalEntrySchema.pre('save')` hook: generate the entry
number when it is missing. -/
def genEntryNumber (store : List JE) (e : JE) : JE :=
  if e.entryNumber = "" then
    { e with entryNumber := mkEntryNumber e.date.y (countOnOrAfterJan1 store e.date.y + 1) }
  else e

/-- Mongoose schema validation for a journal-entry document, restricted to
the checks whose conditions the repository's own code states: the `lines`
array validator (at least 2 lines) and the `min: 0` validators on the
amounts. -/
def jeValidate (e : JE) : Except Err Unit :=
  if e.lines.length < 2 then Except.error Err.tooFewLines
  else if e.lines.any (fun l => l.debit < 0 ∨ l.credit < 0) then Except.error Err.negativeAmount
  else Except.ok ()

/-- The first `JournalEntrySchema.pre('save')` hook: recompute the totals
from the lines, reject an unbalanced entry (tolerance 0.01), reject any line
with both or neither of debit/credit, and stamp `postedAt`. -/
def jeBalanceHook (now : Date) (e : JE) : Except Err JE :=
  let d := sumDebits e.lines
  let c := sumCredits e.lines
  if |d - c| > 1/100 then Except.error (Err.notBalanced d c)
  else if e.lines.any (fun l => l.debit > 0 ∧ l.credit > 0) then Except.error Err.bothDebitCredit
  else if e.lines.any (fun l => l.debit = 0 ∧ l.credit = 0) then Except.error Err.neitherDebitCredit
  else
    let e' : JE := { e with totalDebit := d, totalCredit := c }
    if e'.isPosted ∧ e'.status = JEStatus.Posted ∧ e'.postedAt = none then
      Except.ok { e' with postedAt := some now }
    else
      Except.ok e'

/-- Persist a new journal-entry document: schema validation, then the two
`pre('save')` hooks (balance/totals, then entry-number generation), then
insertion into the collection.  Returns the saved document and the new
state. -/
def jeSave (now : Date) (doc : JE) (s : State) : Except Err (JE × State) :=
  match jeValidate doc with
  | Except.error err => Except.error err
  | Except.ok _ =>
    match jeBalanceHook now doc with
    | Except.error err => Except.error err
    | Except.ok doc₁ =>
      let doc₂ := genEntryNumber s.entries doc₁
      Except.ok (doc₂, { s with entries := s.entries ++ [doc₂], nextId := s.nextId + 1 })

/-- `AccountingService.createJournalEntry(entryData, userId)`: validate that
debits equal credits (tolerance 0.01) before any write, create the entry
with status Posted, post it to the general ledger, all inside one
transaction — on any error the returned state is the input state. -/
def createJournalEntry (ed : EntryData) (userId : String) (now : Date) (s : State) :
    Except Err JE × State :=
  let totalDebit := sumDebits ed.lines
  let totalCredit := sumCredits ed.lines
  if |totalDebit - totalCredit| > 1/100 then
    (Except.error (Err.notBalanced totalDebit totalCredit), s)
  else
    let doc : JE :=
      { id := s.nextId
        tenantId := ed.tenantId
        entryNumber := ed.entryNumber
        date := ed.date
        transactionType := ed.transactionType
        lines := ed.lines
        totalDebit := totalDebit
        totalCredit := totalCredit
        status := JEStatus.Posted
        isPosted := true
        postedAt := none
        reversalOf := none
        reversedBy := none
        createdBy := userId }
    match jeSave now doc s with
    | Except.error err => (Except.error err, s)
    | Except.ok (saved, s₁) =>
      -- post to general ledger if status is Posted, inside the same session
      let s₂ :=
        if saved.isPosted then { s₁ with ledger := postGL saved s₁.ledger } else s₁
      (Except.ok saved, s₂)

/-! ## Reversal -/

/-- The reversal line: debit and credit swapped, account fields copied
(`JournalEntrySchema.methods.reverse`). -/
def swapLine (l : Line) : Line :=
  { l with debit := l.credit, credit := l.debit }

/-- `JournalEntrySchema.methods.reverse(userId, reason)` run against a store:
only Posted entries can be reversed; a new entry is created (dated `now`,
type "Adjustment", lines swapped, **no tenantId supplied by the source**),
then the original is marked Reversed and linked.  None of this runs in a
session: each write persists on its own. -/
def jeReverse (e : JE) (userId : String) (now : Date) (s : State) :
    Except Err (JE × State) :=
  if e.status ≠ JEStatus.Posted then Except.error Err.onlyPostedReversible
  else
    let doc : JE :=
      { id := s.nextId
        tenantId := none
        entryNumber := ""
        date := now
        transactionType := "Adjustment"
        lines := e.lines.map swapLine
        totalDebit := 0
        totalCredit := 0
        status := JEStatus.Posted
        isPosted := true
        postedAt := none
        reversalOf := some e.id
        reversedBy := none
        createdBy := userId }
    match jeSave now doc s with
    | Except.error err => Except.error err
    | Except.ok (reversal, s₁) =>
      -- mark original as reversed (this.save())
      let s₂ : State :=
        { s₁ with entries := s₁.entries.map (fun x =>
            if x.id = e.id then
              { x with status := JEStatus.Reversed, reversedBy := some reversal.id }
            else x) }
      Except.ok (reversal, s₂)

/-- `GeneralLedger.updateMany({ journalEntry: entryId }, { status: "Reversed" })`. -/
def markRowsReversed (entryId : Nat) (ledger : List GLRow) : List GLRow :=
  ledger.map (fun r =>
    if r.journalEntry = entryId then { r with status := GLStatus.Reversed } else r)

/-- `AccountingService.reverseJournalEntry(entryId, userId, reason)`.
`entry.reverse(...)` runs *before* the transaction is started, so its writes
persist even when the transaction that posts the reversal rows and marks the
original rows aborts.  `failPost` injects an infrastructure failure of that
transaction; on such a failure the function returns the state as
`entry.reverse` left it. -/
def reverseJournalEntry (entryId : Nat) (userId : String) (now : Date)
    (failPost : Bool) (s : State) : Except Err JE × State :=
  match s.entries.find? (fun e => e.id = entryId) with
  | none => (Except.error Err.notFound, s)
  | some entry =>
    match jeReverse entry userId now s with
    | Except.error err => (Except.error err, s)
    | Except.ok (reversal, s₁) =>
      -- transaction: post reversal to ledger, then mark original rows
      if failPost then
        (Except.error Err.txnAborted, s₁)
      else
        let s₂ := { s₁ with ledger := markRowsReversed entryId (postGL reversal s₁.ledger) }
        (Except.ok reversal, s₂)

/-! ## Chart of Accounts registry -/

/-- `AccountingService.getFinancialComponent(accountType)`. -/
def getFinancialComponent (t : AcctType) : String :=
  match t with
  | AcctType.Asset => "Assets"
  | AcctType.Liability => "Liabilities"
  | AcctType.Equity => "Equity"
  | AcctType.Revenue => "Operating Income"
  | AcctType.Expense => "Operating Expenses"

/-- `AccountingService.getOrCreateAccount(code, name, type)`.  All three
lookups are `ChartOfAccount.findOne` **without a tenant filter**, and the
fallback creation supplies no tenantId. -/
def getOrCreateAccount (code name : String) (t : AcctType) (s : State) :
    Account × State :=
  match s.accounts.find? (fun a => a.code = code) with
  | some account => (account, s)
  | none =>
    match s.accounts.find? (fun a =>
        code ∈ a.subAccountCodes ∨ code ∈ a.listAccountCodes) with
    | some parent => (parent, s)
    | none =>
      let account : Account :=
        { tenantId := none
          code := code
          name := name
          accountType := t
          financialComponent := getFinancialComponent t
          subAccountCodes := []
          listAccountCodes := [] }
      (account, { s with accounts := s.accounts ++ [account] })

/-! ## Ledger queries (`GeneralLedger` statics) -/

/-- Result shape of `getAccountBalance`. -/
structure BalanceResult where
  totalDebit : ℚ
  totalCredit : ℚ
  balance : ℚ
deriving DecidableEq, Repr

/-- `GeneralLedger.getAccountBalance(accountCode, asOfDate)`: aggregate all
Active rows of the account (any tenant — the `$match` has no tenant filter)
with `date ≤ asOfDate`; balance is `totalDebit − totalCredit`. -/
def getAccountBalance (code : String) (asOf : Date) (ledger : List GLRow) :
    BalanceResult :=
  let rows := ledger.filter (fun r =>
    r.accountCode = code ∧ r.date ≤ asOf ∧ r.status = GLStatus.Active)
  let d := (rows.map GLRow.debit).sum
  let c := (rows.map GLRow.credit).sum
  { totalDebit := d, totalCredit := c, balance := d - c }

/-- Result shape of `getAccountLedger`. -/
structure LedgerResult where
  openingBalance : ℚ
  closingBalance : ℚ
  entries : List (GLRow × ℚ)
deriving DecidableEq, Repr

/-- Sorting by `(date, createdAt)` ascending (`.sort({ date: 1, createdAt: 1 })`). -/
def sortByKey (rows : List GLRow) : List GLRow :=
  rows.insertionSort (fun a b => keyLt a b ∨ a = b)

instance : DecidableRel (fun (a b : GLRow) => keyLt a b ∨ a = b) := by
  intro a b
  show Decidable (keyLt a b ∨ a = b)
  infer_instance

/-- `GeneralLedger.getAccountLedger(accountCode, startDate, endDate)`:
opening balance from `getAccountBalance` at `startDate` (rows with
`date ≤ startDate`) when a start date is given, entries the Active rows with
`startDate ≤ date ≤ endDate` (each bound only when given), running balance
recomputed by accumulating `debit − credit` from the opening balance. -/
def getAccountLedger (code : String) (startDate endDate : Option Date)
    (ledger : List GLRow) : LedgerResult :=
  let rows := ledger.filter (fun r =>
    r.accountCode = code ∧ r.status = GLStatus.Active ∧
    (∀ sd ∈ startDate, sd ≤ r.date) ∧ (∀ ed ∈ endDate, r.date ≤ ed))
  let openingBalance :=
    match startDate with
    | none => 0
    | some sd => (getAccountBalance code sd ledger).balance
  let sorted := sortByKey rows
  let entries := (sorted.foldl
    (fun (acc : List (GLRow × ℚ) × ℚ) r =>
      let rb := acc.2 + r.debit - r.credit
      (acc.1 ++ [(r, rb)], rb))
    ([], openingBalance)).1
  { openingBalance := openingBalance
    closingBalance := sorted.foldl (fun b r => b + r.debit - r.credit) openingBalance
    entries := entries }

/-- One `$group` bucket of the trial-balance aggregation: account code with
accumulated total debit and total credit. -/
structure TBGroup where
  accountCode : String
  totalDebit : ℚ
  totalCredit : ℚ
deriving DecidableEq, Repr

/-- Fold one row into the `$group`-by-accountCode buckets. -/
def addToGroups (gs : List TBGroup) (r : GLRow) : List TBGroup :=
  match gs with
  | [] => [⟨r.accountCode, r.debit, r.credit⟩]
  | g :: rest =>
    if g.accountCode = r.accountCode then
      { g with totalDebit := g.totalDebit + r.debit,
               totalCredit := g.totalCredit + r.credit } :: rest
    else
      g :: addToGroups rest r

/-- Group ledger rows by account code (the `$group` stage; bucket order is
immaterial to every verified property, so the final `$sort` by account code
is not modelled). -/
def tbGroups (rows : List GLRow) : List TBGroup := rows.foldl addToGroups []

/-- One line of the trial-balance report. -/
structure TBAccount where
  accountCode : String
  debit : ℚ
  credit : ℚ
deriving DecidableEq, Repr

/-- Result shape of `getTrialBalance`. -/
structure TBResult where
  accounts : List TBAccount
  totalDebit : ℚ
  totalCredit : ℚ
  isBalanced : Bool
deriving DecidableEq, Repr

/-- The `$project` plus `$match` stages applied to one bucket: net
`totalDebit − totalCredit` in the debit column when positive, in the credit
column when negative, dropped when zero. -/
def tbProject (g : TBGroup) : Option TBAccount :=
  let d := g.totalDebit - g.totalCredit
  let c := g.totalCredit - g.totalDebit
  if d > 0 ∨ c > 0 then
    some { accountCode := g.accountCode
           debit := if d > 0 then d else 0
           credit := if c > 0 then c else 0 }
  else none

/-- `GeneralLedger.getTrialBalance(asOfDate)`: group Active rows with
`date ≤ asOfDate` by account code; report the net `totalDebit − totalCredit`
in the debit column when positive and in the credit column when negative,
dropping zero-net accounts (`$match: debit > 0 or credit > 0`); total both
columns; balanced iff `|totalDebit − totalCredit| < 0.01`. -/
def getTrialBalance (asOf : Date) (ledger : List GLRow) : TBResult :=
  let rows := ledger.filter (fun r => r.date ≤ asOf ∧ r.status = GLStatus.Active)
  let projected := (tbGroups rows).filterMap tbProject
  let totalDebit := (projected.map TBAccount.debit).sum
  let totalCredit := (projected.map TBAccount.credit).sum
  { accounts := projected
    totalDebit := totalDebit
    totalCredit := totalCredit
    isBalanced := decide (|totalDebit - totalCredit| < 1/100) }

/-! ## Concrete scenarios shared by the claim theorems -/

/-- A cash (Asset) debit line, as the Sale adapter builds it. -/
def cashLine (amt : ℚ) : Line :=
  { accountCode := "1000", accountName := "Cash Account",
    accountType := AcctType.Asset, debit := amt, credit := 0 }

/-- A sales-revenue (Revenue) credit line, as the Sale adapter builds it. -/
def revLine (amt : ℚ) : Line :=
  { accountCode := "4000", accountName := "Sales Revenue",
    accountType := AcctType.Revenue, debit := 0, credit := amt }

/-- Entry data of a fully paid sale of 100 on 2024-06-15, tenant `t1`. -/
def saleED : EntryData :=
  { tenantId := some "t1", entryNumber := "", date := ⟨2024, 6, 15⟩,
    transactionType := "Sale", lines := [cashLine 100, revLine 100] }

/-- Posting the sale into an empty database. -/
def saleRun : Except Err JE × State :=
  createJournalEntry saleED "u1" ⟨2024, 6, 15⟩ State.empty

/-- The database after the sale is posted. -/
def sPosted : State := saleRun.2

/-- Reversing the sale entry (id 0) on 2024-07-10, transaction committing. -/
def reverseRun : Except Err JE × State :=
  reverseJournalEntry 0 "u2" ⟨2024, 7, 10⟩ false sPosted

/-- The database after the reversal. -/
def sReversed : State := reverseRun.2

/-- Reversing the sale entry when the ledger-posting transaction aborts. -/
def reverseAborted : Except Err JE × State :=
  reverseJournalEntry 0 "u2" ⟨2024, 7, 10⟩ true sPosted

/-- Recognize the balance validation error. -/
def isNotBalancedErr (r : Except Err JE) : Bool :=
  match r with
  | Except.error (Err.notBalanced _ _) => true
  | _ => false

/-- A second tenant's fully paid sale of 50 on 2024-06-20, same account
codes as tenant `t1` uses. -/
def saleED2 : EntryData :=
  { tenantId := some "t2", entryNumber := "", date := ⟨2024, 6, 20⟩,
    transactionType := "Sale", lines := [cashLine 50, revLine 50] }

/-- The database after tenant `t1`'s sale and tenant `t2`'s sale. -/
def sBoth : State := (createJournalEntry saleED2 "u9" ⟨2024, 6, 20⟩ sPosted).2

/-- An account owned by tenant `t2`. -/
def t2Account : Account :=
  { tenantId := some "t2", code := "7777", name := "T2 Special Cash",
    accountType := AcctType.Asset, financialComponent := "Assets",
    subAccountCodes := [], listAccountCodes := [] }

/-- A database whose chart of accounts holds only tenant `t2`'s account. -/
def sAccounts : State := { State.empty with accounts := [t2Account] }

/-- A receivable debit line of 100.01: together with a revenue credit of 100
it forms an entry that is imbalanced by exactly the 0.01 tolerance and is
therefore accepted. -/
def tolLine : Line :=
  { accountCode := "1200", accountName := "Accounts Receivable",
    accountType := AcctType.Asset, debit := 10001/100, credit := 0 }

/-- Entry data imbalanced by exactly 0.01 (accepted by the validation). -/
def tolED : EntryData :=
  { tenantId := some "t1", entryNumber := "", date := ⟨2024, 6, 15⟩,
    transactionType := "Sale", lines := [tolLine, revLine 100] }

/-- First posting of the tolerance-edge entry. -/
def tolRun1 : Except Err JE × State :=
  createJournalEntry tolED "u1" ⟨2024, 6, 15⟩ State.empty

/-- Second posting of the tolerance-edge entry. -/
def tolRun2 : Except Err JE × State :=
  createJournalEntry tolED "u1" ⟨2024, 6, 15⟩ tolRun1.2

/-- A pre-existing journal entry dated in 2025. -/
def e2025 : JE :=
  { id := 100, tenantId := some "t1", entryNumber := "JE-2025-000001",
    date := ⟨2025, 5, 1⟩, transactionType := "Sale",
    lines := [cashLine 10, revLine 10], totalDebit := 10, totalCredit := 10,
    status := JEStatus.Posted, isPosted := true, postedAt := some ⟨2025, 5, 1⟩,
    reversalOf := none, reversedBy := none, createdBy := "u1" }

/-- A database already holding the 2025 entry. -/
def staleState : State := { entries := [e2025], ledger := [], accounts := [], nextId := 101 }

/-- Entry data dated back into 2024 while a 2025 entry already exists. -/
def backdatedED : EntryData :=
  { tenantId := some "t1", entryNumber := "", date := ⟨2024, 6, 1⟩,
    transactionType := "Sale", lines := [cashLine 10, revLine 10] }

/-- Creating the backdated 2024 entry in the stale database. -/
def c7run : Except Err JE × State :=
  createJournalEntry backdatedED "u1" ⟨2024, 6, 1⟩ staleState

/-- A line on account 1500 (Asset). -/
def c9LineA (dr cr : ℚ) : Line :=
  { accountCode := "1500", accountName := "Sub Cash",
    accountType := AcctType.Asset, debit := dr, credit := cr }

/-- A line on account 3000 (Equity). -/
def c9LineB (dr cr : ℚ) : Line :=
  { accountCode := "3000", accountName := "Owner Equity",
    accountType := AcctType.Equity, debit := dr, credit := cr }

/-- Journal data moving 5 from 3000 to 1500 on 2024-06-15. -/
def c9ED1 : EntryData :=
  { tenantId := some "t1", entryNumber := "", date := ⟨2024, 6, 15⟩,
    transactionType := "Journal", lines := [c9LineA 5 0, c9LineB 0 5] }

/-- Journal data moving the 5 back on the same date. -/
def c9ED2 : EntryData :=
  { tenantId := some "t1", entryNumber := "", date := ⟨2024, 6, 15⟩,
    transactionType := "Journal", lines := [c9LineA 0 5, c9LineB 5 0] }

/-- The database after both same-date journal entries. -/
def c9s : State :=
  (createJournalEntry c9ED2 "u1" ⟨2024, 6, 15⟩
    (createJournalEntry c9ED1 "u1" ⟨2024, 6, 15⟩ State.empty).2).2


/-- Entry data for the claim's rejected two-line input
`[{debit:100},{credit:99}]`. -/
def rejectED : EntryData :=
  { tenantId := some "t1", entryNumber := "", date := ⟨2024, 6, 15⟩,
    transactionType := "Journal", lines := [cashLine 100, revLine 99] }

/-- The journal entry document persisted for `saleED`. -/
def saleSaved : JE :=
  { id := 0, tenantId := some "t1", entryNumber := mkEntryNumber 2024 1,
    date := ⟨2024, 6, 15⟩, transactionType := "Sale",
    lines := [cashLine 100, revLine 100], totalDebit := 100, totalCredit := 100,
    status := JEStatus.Posted, isPosted := true, postedAt := some ⟨2024, 6, 15⟩,
    reversalOf := none, reversedBy := none, createdBy := "u1" }

/-- The reversal entry document persisted when the sale entry is reversed. -/
def revSaved : JE :=
  { id := 1, tenantId := none, entryNumber := mkEntryNumber 2024 2,
    date := ⟨2024, 7, 10⟩, transactionType := "Adjustment",
    lines := [⟨"1000", "Cash Account", AcctType.Asset, 0, 100⟩,
              ⟨"4000", "Sales Revenue", AcctType.Revenue, 100, 0⟩],
    totalDebit := 100, totalCredit := 100, status := JEStatus.Posted,
    isPosted := true, postedAt := some ⟨2024, 7, 10⟩, reversalOf := some 0,
    reversedBy := none, createdBy := "u2" }

/-! ## Structural lemmas about the embedded operations -/

theorem isNotBalancedErr_iff (r : Except Err JE) :
    isNotBalancedErr r = true ↔ ∃ d c, r = Except.error (Err.notBalanced d c) := by
  cases r with
  | ok v => simp [isNotBalancedErr]
  | error e => cases e <;> simp [isNotBalancedErr]

/-- In the model's first pre-save hook, the balance error can only arise
from an imbalance beyond the 0.01 tolerance. -/
theorem hook_notBalanced {now : Date} {e : JE} {d c : ℚ}
    (h : jeBalanceHook now e = Except.error (Err.notBalanced d c)) :
    |sumDebits e.lines - sumCredits e.lines| > 1/100 := by
  unfold jeBalanceHook at h
  dsimp only at h
  split at h
  · assumption
  · split at h
    · simp at h
    · split at h
      · simp at h
      · split at h <;> simp at h

/-- Persisting a journal entry can only raise the balance error when the
lines are imbalanced beyond the tolerance. -/
theorem jeSave_notBalanced {now : Date} {doc : JE} {s : State} {d c : ℚ}
    (h : jeSave now doc s = Except.error (Err.notBalanced d c)) :
    |sumDebits doc.lines - sumCredits doc.lines| > 1/100 := by
  unfold jeSave at h
  split at h
  · rename_i err heq
    unfold jeValidate at heq
    split at heq
    · simp_all
    · split at heq <;> simp_all
  · split at h
    · rename_i err heq
      injection h with h'
      subst h'
      exact hook_notBalanced heq
    · simp at h

theorem notBalanced_fwd (ed : EntryData) (userId : String) (now : Date) (s : State)
    (hc : isNotBalancedErr (createJournalEntry ed userId now s).1 = true) :
    |sumDebits ed.lines - sumCredits ed.lines| > 1/100 := by
  rw [isNotBalancedErr_iff] at hc
  obtain ⟨d, c, hc⟩ := hc
  simp only [createJournalEntry] at hc
  split at hc
  · assumption
  · split at hc
    · rename_i err heq
      injection hc with h'
      subst h'
      have hres := jeSave_notBalanced heq
      exact hres
    · exact Except.noConfusion hc

theorem notBalanced_bwd (ed : EntryData) (userId : String) (now : Date) (s : State)
    (hgt : |sumDebits ed.lines - sumCredits ed.lines| > 1/100) :
    isNotBalancedErr (createJournalEntry ed userId now s).1 = true := by
  rw [isNotBalancedErr_iff]
  refine ⟨sumDebits ed.lines, sumCredits ed.lines, ?_⟩
  simp only [createJournalEntry, if_pos hgt]

/-- On any error the transaction is aborted: the state is unchanged. -/
theorem createJE_error_state (ed : EntryData) (userId : String) (now : Date) (s : State)
    (err : Err) (h : (createJournalEntry ed userId now s).1 = Except.error err) :
    (createJournalEntry ed userId now s).2 = s := by
  revert h
  simp only [createJournalEntry]
  split
  · intro _; rfl
  · split
    · intro _; rfl
    · intro h; exact Except.noConfusion h

theorem genEntryNumber_fields (store : List JE) (e : JE) :
    (genEntryNumber store e).date = e.date ∧ (genEntryNumber store e).id = e.id ∧
      (genEntryNumber store e).lines = e.lines := by
  unfold genEntryNumber
  split <;> exact ⟨rfl, rfl, rfl⟩

/-- The first pre-save hook never changes the entry number, date, id or
lines of the document. -/
theorem hook_fields {now : Date} {doc doc₁ : JE}
    (h : jeBalanceHook now doc = Except.ok doc₁) :
    doc₁.entryNumber = doc.entryNumber ∧ doc₁.date = doc.date ∧ doc₁.id = doc.id ∧
      doc₁.lines = doc.lines := by
  unfold jeBalanceHook at h
  dsimp only at h
  split at h
  · exact Except.noConfusion h
  · split at h
    · exact Except.noConfusion h
    · split at h
      · exact Except.noConfusion h
      · split at h <;> (injection h with h'; subst h'; exact ⟨rfl, rfl, rfl, rfl⟩)

theorem jeSave_ok_fields {now : Date} {doc : JE} {s : State} {saved : JE} {s₁ : State}
    (h : jeSave now doc s = Except.ok (saved, s₁)) :
    saved.date = doc.date ∧ saved.id = doc.id ∧ saved.lines = doc.lines ∧
      s₁.ledger = s.ledger ∧ s₁.accounts = s.accounts ∧
      s₁.entries = s.entries ++ [saved] := by
  unfold jeSave at h
  split at h
  · exact Except.noConfusion h
  · split at h
    · exact Except.noConfusion h
    · rename_i doc₁ heq
      obtain ⟨hn, hd, hi, hl⟩ := hook_fields heq
      obtain ⟨gd, gi, gl⟩ := genEntryNumber_fields s.entries doc₁
      injection h with h'
      injection h' with h₁ h₂
      subst h₁
      subst h₂
      exact ⟨gd.trans hd, gi.trans hi, gl.trans hl, rfl, rfl, rfl⟩

/-- A successfully saved document whose entry number was empty gets the
number generated from the entry's year and the count of all stored entries
dated on or after January 1 of that year. -/
theorem jeSave_entryNumber {now : Date} {doc : JE} {s : State} {saved : JE} {s₁ : State}
    (h : jeSave now doc s = Except.ok (saved, s₁)) (hnum : doc.entryNumber = "") :
    saved.entryNumber = mkEntryNumber doc.date.y (countOnOrAfterJan1 s.entries doc.date.y + 1) := by
  unfold jeSave at h
  split at h
  · exact Except.noConfusion h
  · split at h
    · exact Except.noConfusion h
    · rename_i doc₁ heq
      injection h with h'
      injection h' with h₁ h₂
      obtain ⟨hn, hd, _, _⟩ := hook_fields heq
      subst h₁
      unfold genEntryNumber
      rw [hn, hnum, hd]
      simp

/-- Shape of a successful `entry.reverse` call. -/
theorem jeReverse_ok {e : JE} {userId : String} {now : Date} {s : State}
    {reversal : JE} {s₁ : State}
    (h : jeReverse e userId now s = Except.ok (reversal, s₁)) :
    reversal.date = now ∧ reversal.id = s.nextId ∧
      reversal.lines = e.lines.map swapLine ∧ s₁.ledger = s.ledger := by
  unfold jeReverse at h
  dsimp only at h
  split at h
  · exact Except.noConfusion h
  · split at h
    · exact Except.noConfusion h
    · rename_i r₀ s₀ heq
      obtain ⟨hd, hi, hl, hled, _, _⟩ := jeSave_ok_fields heq
      injection h with h'
      injection h' with h₁ h₂
      subst h₁
      subst h₂
      exact ⟨hd, hi, hl, hled⟩

/-- Every row of a posted batch carries the entry's date and id. -/
theorem mkRows_mem {entry : JE} {L : List GLRow} :
    ∀ {i : Nat} {ls : List Line} {r : GLRow}, r ∈ mkRows entry L i ls →
      r.date = entry.date ∧ r.journalEntry = entry.id := by
  intro i ls
  induction ls generalizing i with
  | nil => intro r hr; exact absurd hr (List.not_mem_nil r)
  | cons l t ih =>
    intro r hr
    rcases List.mem_cons.mp hr with h | h
    · subst h; exact ⟨rfl, rfl⟩
    · exact ih h

/-- Effect of `updateMany({journalEntry: entryId}, {status: "Reversed"})` on
a row of the result. -/
theorem markRows_mem {entryId : Nat} {L : List GLRow} {r : GLRow}
    (h : r ∈ markRowsReversed entryId L) :
    (r.journalEntry = entryId → r.status = GLStatus.Reversed) ∧
      (r.journalEntry ≠ entryId → r ∈ L) := by
  unfold markRowsReversed at h
  rcases List.mem_map.mp h with ⟨x, hx, hfx⟩
  by_cases hj : x.journalEntry = entryId
  · rw [if_pos hj] at hfx
    subst hfx
    exact ⟨fun _ => rfl, fun hne => absurd hj hne⟩
  · rw [if_neg hj] at hfx
    subst hfx
    exact ⟨fun he => absurd he hj, fun _ => hx⟩

/-! ## Summation lemmas -/

theorem sum_map_add (l : List GLRow) (f g : GLRow → ℚ) :
    (l.map (fun x => f x + g x)).sum = (l.map f).sum + (l.map g).sum := by
  induction l with
  | nil => simp
  | cons r t ih => simp [ih]; ring

theorem filter_map_sum (l : List GLRow) (p : GLRow → Bool) (f : GLRow → ℚ) :
    ((l.filter p).map f).sum = (l.map (fun x => if p x = true then f x else 0)).sum := by
  induction l with
  | nil => simp
  | cons r t ih =>
    by_cases h : p r = true
    · simp [List.filter_cons, h, ih]
    · simp [List.filter_cons, h, ih]

theorem sum_map_congr (l : List GLRow) (f g : GLRow → ℚ) (h : ∀ x, f x = g x) :
    (l.map f).sum = (l.map g).sum := by
  induction l with
  | nil => simp
  | cons r t ih => simp [ih, h r]

theorem foldl_net (l : List GLRow) (b : ℚ) :
    l.foldl (fun b r => b + r.debit - r.credit) b =
      b + (l.map (fun r => r.debit - r.credit)).sum := by
  induction l generalizing b with
  | nil => simp
  | cons r t ih => simp [ih]; ring

theorem sortByKey_map_sum (l : List GLRow) (f : GLRow → ℚ) :
    ((sortByKey l).map f).sum = (l.map f).sum :=
  ((List.perm_insertionSort _ l).map f).sum_eq

theorem sum_sub_net (l : List GLRow) :
    (l.map GLRow.debit).sum - (l.map GLRow.credit).sum =
      (l.map (fun r => r.debit - r.credit)).sum := by
  induction l with
  | nil => simp
  | cons r t ih => simp [← ih]; ring

/-- Pointwise form of the boundary double count: counting a row once in the
opening balance (`date ≤ startDate`) and once in the range
(`startDate ≤ date ≤ endDate`) equals counting it once through the end date
plus once exactly at the start date. -/
theorem boundary_weight (code : String) (sd e : Date) (h : sd ≤ e) (r : GLRow) :
    (if (r.accountCode = code ∧ r.date ≤ sd ∧ r.status = GLStatus.Active) then r.debit - r.credit else 0) +
    (if (r.accountCode = code ∧ r.status = GLStatus.Active ∧ sd ≤ r.date ∧ r.date ≤ e) then r.debit - r.credit else 0) =
    (if (r.accountCode = code ∧ r.date ≤ e ∧ r.status = GLStatus.Active) then r.debit - r.credit else 0) +
    (if (r.accountCode = code ∧ r.status = GLStatus.Active ∧ r.date = sd) then r.debit - r.credit else 0) := by
  by_cases hc : r.accountCode = code
  · by_cases ha : r.status = GLStatus.Active
    · by_cases h1 : r.date ≤ sd
      · by_cases h2 : sd ≤ r.date
        · have hsd : r.date = sd := Date.le_antisymm h1 h2
          have hde : r.date ≤ e := Date.le_trans h1 h
          simp [hc, ha, h1, h2, hsd, hde, h, Date.le_refl]
        · have hde : r.date ≤ e := Date.le_trans h1 h
          have hne : ¬ r.date = sd := fun hh => h2 (hh ▸ Date.le_refl r.date)
          simp [hc, ha, h1, h2, hde, hne]
      · have h2 : sd ≤ r.date := Date.not_le h1
        have hne : ¬ r.date = sd := fun hh => h1 (hh ▸ Date.le_refl r.date)
        by_cases h3 : r.date ≤ e
        · simp [hc, ha, h1, h2, h3, hne]
        · simp [hc, ha, h1, h2, h3, hne]
    · simp [ha]
  · simp [hc]

/-! ## Trial-balance lemmas -/

theorem addToGroups_net (gs : List TBGroup) (r : GLRow) :
    ((addToGroups gs r).map (fun g => g.totalDebit - g.totalCredit)).sum =
      (gs.map (fun g => g.totalDebit - g.totalCredit)).sum + (r.debit - r.credit) := by
  induction gs with
  | nil => simp [addToGroups]
  | cons g t ih =>
    by_cases h : g.accountCode = r.accountCode
    · simp [addToGroups, h]
      ring
    · simp [addToGroups, h, ih]
      ring

theorem tbGroups_net (rows : List GLRow) : ∀ (gs : List TBGroup),
    ((rows.foldl addToGroups gs).map (fun g => g.totalDebit - g.totalCredit)).sum =
      (gs.map (fun g => g.totalDebit - g.totalCredit)).sum +
        (rows.map (fun r => r.debit - r.credit)).sum := by
  induction rows with
  | nil => intro gs; simp
  | cons r t ih =>
    intro gs
    simp only [List.foldl_cons, List.map_cons, List.sum_cons]
    rw [ih, addToGroups_net]
    ring

theorem tbProject_eq (g : TBGroup) :
    tbProject g =
      if g.totalDebit - g.totalCredit > 0 then
        some ⟨g.accountCode, g.totalDebit - g.totalCredit, 0⟩
      else if g.totalCredit - g.totalDebit > 0 then
        some ⟨g.accountCode, 0, g.totalCredit - g.totalDebit⟩
      else none := by
  simp only [tbProject]
  by_cases h1 : g.totalDebit - g.totalCredit > 0
  · have h2 : ¬ g.totalCredit - g.totalDebit > 0 := by linarith
    rw [if_pos (Or.inl h1), if_pos h1, if_pos h1, if_neg h2]
  · by_cases h2 : g.totalCredit - g.totalDebit > 0
    · rw [if_pos (Or.inr h2), if_neg h1, if_neg h1, if_pos h2, if_pos h2]
    · rw [if_neg (not_or.mpr ⟨h1, h2⟩), if_neg h1, if_neg h2]

theorem tbProject_net (gs : List TBGroup) :
    ((gs.filterMap tbProject).map TBAccount.debit).sum -
      ((gs.filterMap tbProject).map TBAccount.credit).sum =
      (gs.map (fun g => g.totalDebit - g.totalCredit)).sum := by
  induction gs with
  | nil => simp
  | cons g t ih =>
    rcases lt_trichotomy g.totalCredit g.totalDebit with h | h | h
    · rw [List.filterMap_cons, tbProject_eq,
        if_pos (by linarith : g.totalDebit - g.totalCredit > 0)]
      simp only [List.map_cons, List.sum_cons]
      linarith [ih]
    · rw [List.filterMap_cons, tbProject_eq,
        if_neg (by rw [h]; simp : ¬ g.totalDebit - g.totalCredit > 0),
        if_neg (by rw [h]; simp : ¬ g.totalCredit - g.totalDebit > 0)]
      simp only [List.map_cons, List.sum_cons]
      rw [ih, h]
      ring
    · rw [List.filterMap_cons, tbProject_eq,
        if_neg (by linarith : ¬ g.totalDebit - g.totalCredit > 0),
        if_pos (by linarith : g.totalCredit - g.totalDebit > 0)]
      simp only [List.map_cons, List.sum_cons]
      linarith [ih]

theorem tbProject_onecol {g : TBGroup} {a : TBAccount} (h : tbProject g = some a) :
    (a.debit > 0 ∧ a.credit = 0) ∨ (a.credit > 0 ∧ a.debit = 0) := by
  rw [tbProject_eq] at h
  split at h
  · injection h with h'
    subst h'
    left
    exact ⟨by assumption, rfl⟩
  · split at h
    · injection h with h'
      subst h'
      right
      exact ⟨by assumption, rfl⟩
    · exact Option.noConfusion h

theorem mkRows_tb_net (asOf : Date) (entry : JE) (L : List GLRow) :
    ∀ (ls : List Line) (i : Nat),
    (((mkRows entry L i ls).filter (fun r => r.date ≤ asOf ∧ r.status = GLStatus.Active)).map
      (fun r => r.debit - r.credit)).sum =
    if entry.date ≤ asOf then sumDebits ls - sumCredits ls else 0 := by
  intro ls
  induction ls with
  | nil =>
    intro i
    simp [mkRows, sumDebits, sumCredits]
  | cons l t ih =>
    intro i
    simp only [mkRows, List.filter_cons]
    by_cases h : entry.date ≤ asOf
    · rw [if_pos (by simp [mkRow, h])]
      simp only [List.map_cons, List.sum_cons]
      rw [ih]
      simp only [mkRow, if_pos h]
      simp [sumDebits, sumCredits]
      ring
    · rw [if_neg (by simp [mkRow, h])]
      rw [ih]
      simp [h]

theorem postSeq_tb_net (asOf : Date) : ∀ (es : List JE) (L : List GLRow),
    (∀ e ∈ es, sumDebits e.lines = sumCredits e.lines) →
    (((es.foldl (fun L e => postGL e L) L).filter
        (fun r => r.date ≤ asOf ∧ r.status = GLStatus.Active)).map
      (fun r => r.debit - r.credit)).sum =
    ((L.filter (fun r => r.date ≤ asOf ∧ r.status = GLStatus.Active)).map
      (fun r => r.debit - r.credit)).sum := by
  intro es
  induction es with
  | nil => intro L _; rfl
  | cons e t ih =>
    intro L hbal
    simp only [List.foldl_cons]
    rw [ih (postGL e L) (fun x hx => hbal x (List.mem_cons_of_mem _ hx))]
    unfold postGL
    rw [List.filter_append, List.map_append, List.sum_append]
    rw [mkRows_tb_net]
    have h0 : sumDebits e.lines - sumCredits e.lines = 0 := by
      rw [hbal e (List.mem_cons_self _ _)]
      ring
    rw [h0]
    simp


/-! ## Replay (running balance) development -/

/-- The rows of one account, in ledger (insertion) order. -/
def rowsFor (code : String) (L : List GLRow) : List GLRow :=
  L.filter (fun r => r.accountCode = code)

/-- Replay check: walking the rows in order, accumulating the category-aware
delta from `b`, reproduces each row's stored balance. -/
def replayChk : ℚ → List GLRow → Bool
  | _, [] => true
  | b, r :: rs => if r.balance = b + rowDelta r then replayChk (b + rowDelta r) rs else false

/-- Total category-aware delta of a list of rows. -/
def sumDeltas (L : List GLRow) : ℚ := (L.map rowDelta).sum

theorem replayChk_append_one (l : List GLRow) (r : GLRow) (b : ℚ)
    (h : replayChk b l = true) (hr : r.balance = b + sumDeltas l + rowDelta r) :
    replayChk b (l ++ [r]) = true := by
  induction l generalizing b with
  | nil =>
    have : r.balance = b + rowDelta r := by
      rw [hr]
      simp [sumDeltas]
    simp [replayChk, this]
  | cons x t ih =>
    unfold replayChk at h ⊢
    split at h
    · rename_i hx
      rw [List.cons_append]
      simp only [replayChk]
      rw [if_pos hx]
      apply ih _ h
      rw [hr]
      simp [sumDeltas, rowDelta]
      ring
    · exact absurd h (by simp)

theorem replayChk_last (l : List GLRow) (b : ℚ) (h : replayChk b l = true) :
    (match l.getLast? with | none => b | some r => r.balance) = b + sumDeltas l := by
  induction l generalizing b with
  | nil => simp [sumDeltas]
  | cons x t ih =>
    unfold replayChk at h
    split at h
    · rename_i hx
      cases t with
      | nil =>
        simp only [List.getLast?_singleton]
        rw [hx]
        simp [sumDeltas]
      | cons y t' =>
        rw [List.getLast?_cons_cons]
        have ihh := ih (b + rowDelta x) h
        cases hgl : (y :: t').getLast? with
        | none => simp at hgl
        | some rr =>
          rw [hgl] at ihh
          rw [ihh]
          simp [sumDeltas]
          ring
    · exact absurd h (by simp)

theorem foldl_pick_chain (l : List GLRow) : ∀ (m : GLRow), List.Chain keyLt m l →
    l.foldl (fun best r =>
      match best with
      | none => some r
      | some mm => if keyLt mm r then some r else some mm) (some m) = (m :: l).getLast? := by
  induction l with
  | nil => intro m _; simp
  | cons x t ih =>
    intro m hc
    cases hc with
    | cons hmx hxt =>
      simp only [List.foldl_cons]
      rw [if_pos hmx]
      rw [ih x hxt]
      rw [List.getLast?_cons_cons]

theorem latestActive_eq_getLast (code : String) (L : List GLRow)
    (hA : ∀ r ∈ L, r.status = GLStatus.Active)
    (hP : List.Pairwise keyLt L) :
    latestActive code L = (rowsFor code L).getLast? := by
  unfold latestActive rowsFor
  have hfilter : L.filter (fun r => r.accountCode = code ∧ r.status = GLStatus.Active) =
      L.filter (fun r => r.accountCode = code) := by
    apply List.filter_congr
    intro r hr
    simp [hA r hr]
  rw [hfilter]
  have hPf : List.Pairwise keyLt (L.filter (fun r => r.accountCode = code)) := hP.filter _
  cases hl : L.filter (fun r => decide (r.accountCode = code)) with
  | nil => simp
  | cons x t =>
    rw [List.foldl_cons]
    have hch : List.Chain keyLt x t := by
      have := hPf
      rw [show (L.filter (fun r => r.accountCode = code)) =
        L.filter (fun r => decide (r.accountCode = code)) from rfl, hl] at this
      exact this.chain'
    exact foldl_pick_chain t x hch

theorem previousBalance_eq (code : String) (L : List GLRow)
    (hA : ∀ r ∈ L, r.status = GLStatus.Active)
    (hP : List.Pairwise keyLt L)
    (hchk : replayChk 0 (rowsFor code L) = true) :
    previousBalance code L = sumDeltas (rowsFor code L) := by
  unfold previousBalance
  rw [latestActive_eq_getLast code L hA hP]
  have hlast := replayChk_last (rowsFor code L) 0 hchk
  cases h : (rowsFor code L).getLast? with
  | none =>
    rw [h] at hlast
    simpa using hlast
  | some r =>
    rw [h] at hlast
    simpa using hlast
theorem mkRows_length (entry : JE) (L : List GLRow) :
    ∀ (ls : List Line) (i : Nat), (mkRows entry L i ls).length = ls.length := by
  intro ls
  induction ls with
  | nil => intro i; rfl
  | cons l t ih => intro i; simp [mkRows, ih]

theorem mkRows_fields {entry : JE} {L : List GLRow} :
    ∀ {ls : List Line} {i : Nat} {r : GLRow}, r ∈ mkRows entry L i ls →
      r.date = entry.date ∧ r.status = GLStatus.Active ∧
        L.length + i ≤ r.createdAt ∧ r.createdAt < L.length + i + ls.length := by
  intro ls
  induction ls with
  | nil => intro i r hr; exact absurd hr (List.not_mem_nil r)
  | cons l t ih =>
    intro i r hr
    rcases List.mem_cons.mp hr with h | h
    · subst h
      refine ⟨rfl, rfl, Nat.le_refl _, ?_⟩
      simp only [mkRow, List.length_cons]
      omega
    · obtain ⟨h1, h2, h3, h4⟩ := ih h
      refine ⟨h1, h2, by omega, ?_⟩
      simp only [List.length_cons]
      omega

theorem mkRows_pairwise (entry : JE) (L : List GLRow) :
    ∀ (ls : List Line) (i : Nat), List.Pairwise keyLt (mkRows entry L i ls) := by
  intro ls
  induction ls with
  | nil => intro i; exact List.Pairwise.nil
  | cons l t ih =>
    intro i
    refine List.pairwise_cons.mpr ⟨?_, ih (i + 1)⟩
    intro r hr
    obtain ⟨h1, _, h3, _⟩ := mkRows_fields hr
    constructor
    · rw [h1]
      exact Date.le_refl _
    · right
      simp only [mkRow]
      omega

theorem rowsFor_append (code : String) (L B : List GLRow) :
    rowsFor code (L ++ B) = rowsFor code L ++ rowsFor code B :=
  List.filter_append _ _

theorem rowsFor_mkRows_nil (code : String) (entry : JE) (L : List GLRow) :
    ∀ (ls : List Line) (i : Nat), (∀ l ∈ ls, l.accountCode ≠ code) →
      rowsFor code (mkRows entry L i ls) = [] := by
  intro ls
  induction ls with
  | nil => intro i _; rfl
  | cons l t ih =>
    intro i hno
    unfold rowsFor mkRows
    rw [List.filter_cons, if_neg (by simp [mkRow, hno l (List.mem_cons_self _ _)])]
    exact ih (i + 1) (fun x hx => hno x (List.mem_cons_of_mem _ hx))

theorem rowsFor_mkRows_cases (code : String) (entry : JE) (L : List GLRow) :
    ∀ (ls : List Line) (i : Nat), (ls.map Line.accountCode).Nodup →
      rowsFor code (mkRows entry L i ls) = [] ∨
      (∃ idx l, l.accountCode = code ∧
        rowsFor code (mkRows entry L i ls) = [mkRow entry L idx l]) := by
  intro ls
  induction ls with
  | nil => intro i _; left; rfl
  | cons l t ih =>
    intro i hnd
    rw [List.map_cons, List.nodup_cons] at hnd
    by_cases hc : l.accountCode = code
    · right
      refine ⟨i, l, hc, ?_⟩
      have hnone : ∀ x ∈ t, x.accountCode ≠ code := by
        intro x hx hxc
        exact hnd.1 (List.mem_map.mpr ⟨x, hx, by rw [hxc, hc]⟩)
      unfold rowsFor mkRows
      rw [List.filter_cons, if_pos (by simp [mkRow, hc])]
      have := rowsFor_mkRows_nil code entry L t (i + 1) hnone
      unfold rowsFor at this
      rw [this]
    · unfold rowsFor mkRows
      rw [List.filter_cons, if_neg (by simp [mkRow, hc])]
      exact ih (i + 1) hnd.2
/-- Invariant of a ledger built only by postings in non-decreasing date
order: all rows Active, rows strictly increasing under the lookup's sort
key, `createdAt` bounded by the collection size, and every account's stored
balances replayable from 0 by the category-aware delta. -/
def LedgerInv (L : List GLRow) : Prop :=
  (∀ r ∈ L, r.status = GLStatus.Active) ∧ List.Pairwise keyLt L ∧
    (∀ r ∈ L, r.createdAt < L.length) ∧
    (∀ code, replayChk 0 (rowsFor code L) = true)

theorem rowDelta_mkRow (entry : JE) (L : List GLRow) (idx : Nat) (l : Line) :
    rowDelta (mkRow entry L idx l) = lineDelta l := by
  unfold rowDelta lineDelta mkRow
  cases l.accountType <;> rfl

theorem replay_step (code : String) (entry : JE) (L : List GLRow)
    (hA : ∀ r ∈ L, r.status = GLStatus.Active)
    (hP : List.Pairwise keyLt L)
    (hchk : replayChk 0 (rowsFor code L) = true)
    (hnd : (entry.lines.map Line.accountCode).Nodup) :
    replayChk 0 (rowsFor code (postGL entry L)) = true := by
  unfold postGL
  rw [rowsFor_append]
  rcases rowsFor_mkRows_cases code entry L entry.lines 0 hnd with hnil | ⟨idx, l, hlc, heq⟩
  · rw [hnil, List.append_nil]
    exact hchk
  · rw [heq]
    apply replayChk_append_one _ _ _ hchk
    have hbal : (mkRow entry L idx l).balance = previousBalance l.accountCode L + lineDelta l := rfl
    rw [hbal, rowDelta_mkRow, hlc, previousBalance_eq code L hA hP hchk]
    ring

theorem inv_step (entry : JE) (L : List GLRow) (hInv : LedgerInv L)
    (hdate : ∀ r ∈ L, r.date ≤ entry.date)
    (hnd : (entry.lines.map Line.accountCode).Nodup) :
    LedgerInv (postGL entry L) := by
  obtain ⟨hA, hP, hC, hR⟩ := hInv
  refine ⟨?_, ?_, ?_, ?_⟩
  · intro r hr
    rcases List.mem_append.mp hr with h | h
    · exact hA r h
    · exact (mkRows_fields h).2.1
  · unfold postGL
    refine List.pairwise_append.mpr ⟨hP, mkRows_pairwise entry L entry.lines 0, ?_⟩
    intro a ha b hb
    obtain ⟨hbd, _, hbc, _⟩ := mkRows_fields hb
    constructor
    · rw [hbd]
      exact hdate a ha
    · right
      have := hC a ha
      omega
  · intro r hr
    unfold postGL at hr ⊢
    rw [List.length_append, mkRows_length]
    rcases List.mem_append.mp hr with h | h
    · have := hC r h
      omega
    · have := (mkRows_fields h).2.2.2
      omega
  · intro code
    exact replay_step code entry L hA hP (hR code) hnd

theorem postSeq_inv : ∀ (es : List JE) (L : List GLRow), LedgerInv L →
    (∀ r ∈ L, ∀ e ∈ es, r.date ≤ e.date) →
    List.Pairwise (fun a b => a.date ≤ b.date) es →
    (∀ e ∈ es, (e.lines.map Line.accountCode).Nodup) →
    LedgerInv (es.foldl (fun L e => postGL e L) L) := by
  intro es
  induction es with
  | nil => intro L h _ _ _; exact h
  | cons e t ih =>
    intro L hInv hLd hp hnd
    rw [List.pairwise_cons] at hp
    simp only [List.foldl_cons]
    apply ih (postGL e L)
    · exact inv_step e L hInv (fun r hr => hLd r hr e (List.mem_cons_self _ _))
        (hnd e (List.mem_cons_self _ _))
    · intro r hr e' he'
      rcases List.mem_append.mp hr with hold | hnew
      · exact hLd r hold e' (List.mem_cons_of_mem _ he')
      · rw [(mkRows_fields hnew).1]
        exact hp.1 e' he'
    · exact hp.2
    · exact fun e' he' => hnd e' (List.mem_cons_of_mem _ he')

/-! ## Claim theorems -/

set_option maxHeartbeats 1600000

/-- C1 (counterexample): posting a fully paid sale to an empty ledger
creates a Revenue row with debit 0, credit 100 and stored balance **+100**,
while the claim's uniform rule `previousBalance + debit − credit` predicts
−100 — `postToGeneralLedger` flips the sign for Revenue (and Liability and
Equity) lines. -/
theorem C1_counterexample :
    (sPosted.ledger.get? 1).map (fun r => (r.accountCode, r.debit, r.credit, r.balance)) =
      some ("4000", 0, 100, 100) ∧
    previousBalance "4000" [] + ((0 : ℚ) - 100) = -100 ∧
    (100 : ℚ) ≠ -100 := by
  norm_num +decide [Except.toOption, Option.isSome, List.filter_cons, List.filter_nil, createJournalEntry, sumDebits, sumCredits, jeSave, jeValidate, jeBalanceHook, genEntryNumber, countOnOrAfterJan1, postGL, mkRows, mkRow, previousBalance, latestActive, keyLt, lineDelta, State.empty, sPosted, saleRun, saleED,
    cashLine, revLine, getAccountBalance]

/-- C2 (counterexample): an entry imbalanced by exactly 0.01 is accepted by
`createJournalEntry`; posting two of them yields a trial balance whose
`isBalanced` is `false` — per-entry tolerances accumulate past the
trial-balance threshold. -/
theorem C2_counterexample :
    |sumDebits tolED.lines - sumCredits tolED.lines| = 1/100 ∧
    ¬ |sumDebits tolED.lines - sumCredits tolED.lines| > 1/100 ∧
    tolRun1.1.toOption.isSome = true ∧
    tolRun2.1.toOption.isSome = true ∧
    (getTrialBalance ⟨2024, 12, 31⟩ tolRun2.2.ledger).isBalanced = false := by
  norm_num +decide [Except.toOption, Option.isSome, List.filter_cons, List.filter_nil, createJournalEntry, sumDebits, sumCredits, jeSave, jeValidate, jeBalanceHook, genEntryNumber, countOnOrAfterJan1, postGL, mkRows, mkRow, previousBalance, latestActive, keyLt, lineDelta, State.empty, tolRun1, tolRun2, tolED, tolLine,
    revLine, List.filterMap, getTrialBalance, tbGroups, addToGroups, tbProject,
    abs_of_nonneg, abs_of_nonpos]

/-- C3 (code bug, evaluated): reversing the posted sale produces an entry
whose lines are the original lines with debit and credit swapped, but the
Cash account's `getAccountBalance` afterwards is **−100**, not the 0 it was
before the sale was posted: the original rows are excluded as Reversed *and*
the offsetting rows are posted, so the entry's effect is subtracted twice. -/
theorem C3_bug_eval :
    reverseRun.1.toOption.map JE.lines = some (saleED.lines.map swapLine) ∧
    (getAccountBalance "1000" ⟨2024, 12, 31⟩ State.empty.ledger).balance = 0 ∧
    (getAccountBalance "1000" ⟨2024, 12, 31⟩ sReversed.ledger).balance = -100 ∧
    ((-100 : ℚ) ≠ 0) := by
  norm_num +decide [Except.toOption, Option.isSome, List.filter_cons, List.filter_nil, createJournalEntry, sumDebits, sumCredits, jeSave, jeValidate, jeBalanceHook, genEntryNumber, countOnOrAfterJan1, postGL, mkRows, mkRow, previousBalance, latestActive, keyLt, lineDelta, State.empty, sReversed, reverseRun, reverseJournalEntry,
    jeReverse, swapLine, markRowsReversed, sPosted, saleRun, saleED, cashLine, revLine,
    List.find?, getAccountBalance]

/-- C4 (code bug, evaluated): when the transaction that posts the
reversal's ledger rows aborts, `reverseJournalEntry` reports an error but
the reversal journal entry is already persisted and the original entry is
already marked Reversed, while the ledger is untouched — `entry.reverse()`
runs before the transaction starts, so the operation is not atomic. -/
theorem C4_bug_eval :
    reverseAborted.1 = Except.error Err.txnAborted ∧
    reverseAborted.2.entries.map (fun e => (e.id, e.status)) =
      [(0, JEStatus.Reversed), (1, JEStatus.Posted)] ∧
    reverseAborted.2.ledger = sPosted.ledger ∧
    reverseAborted.2 ≠ sPosted := by
  norm_num +decide [Except.toOption, Option.isSome, List.filter_cons, List.filter_nil, createJournalEntry, sumDebits, sumCredits, jeSave, jeValidate, jeBalanceHook, genEntryNumber, countOnOrAfterJan1, postGL, mkRows, mkRow, previousBalance, latestActive, keyLt, lineDelta, State.empty, reverseAborted, reverseJournalEntry,
    jeReverse, swapLine, markRowsReversed, sPosted, saleRun, saleED, cashLine, revLine,
    List.find?]

/-- C5 (code bug, evaluated): `getAccountBalance` computed for tenant `t1`'s
ledger changes from 100 to 150 when tenant `t2` posts to the same account
code; the previous-balance lookup picks `t2`'s row as the latest row of the
account; and `getOrCreateAccount` resolves a code straight to another
tenant's account — none of these queries filters by tenant. -/
theorem C5_bug_eval :
    (getAccountBalance "1000" ⟨2024, 12, 31⟩ sPosted.ledger).balance = 100 ∧
    (getAccountBalance "1000" ⟨2024, 12, 31⟩ sBoth.ledger).balance = 150 ∧
    ((150 : ℚ) ≠ 100) ∧
    (latestActive "1000" sBoth.ledger).map GLRow.journalEntry = some 1 ∧
    (getOrCreateAccount "7777" "Cash Account" AcctType.Asset sAccounts).1.tenantId =
      some "t2" := by
  norm_num +decide [Except.toOption, Option.isSome, List.filter_cons, List.filter_nil, createJournalEntry, sumDebits, sumCredits, jeSave, jeValidate, jeBalanceHook, genEntryNumber, countOnOrAfterJan1, postGL, mkRows, mkRow, previousBalance, latestActive, keyLt, lineDelta, State.empty, sBoth, saleED2, sAccounts, t2Account,
    getOrCreateAccount, List.find?, sPosted, saleRun, saleED, cashLine, revLine,
    getAccountBalance]

/-- C8 (code bug, evaluated): the rows created by `postToGeneralLedger` for
an entry dated 2024-06-15 all have `fiscalYear` and `fiscalPeriod` unset,
because `insertMany` does not run the `pre('save')` hook; applying the
hook's derivation to those same rows would set fiscal year 2024 and fiscal
period 6. -/
theorem C8_bug_eval :
    sPosted.ledger.map (fun r => (r.fiscalYear, r.fiscalPeriod)) =
      [(none, none), (none, none)] ∧
    sPosted.ledger.map (fun r => ((glFiscalHook r).fiscalYear, (glFiscalHook r).fiscalPeriod)) =
      [(some 2024, some 6), (some 2024, some 6)] := by
  norm_num +decide [Except.toOption, Option.isSome, List.filter_cons, List.filter_nil, createJournalEntry, sumDebits, sumCredits, jeSave, jeValidate, jeBalanceHook, genEntryNumber, countOnOrAfterJan1, postGL, mkRows, mkRow, previousBalance, latestActive, keyLt, lineDelta, State.empty, sPosted, saleRun, saleED, cashLine,
    revLine, glFiscalHook]

/-- C7 (counterexample): with one existing entry dated 2025-05-01, a new
entry dated 2024-06-01 receives entry number `JE-2024-000002`, although no
existing entry belongs to calendar year 2024 — the count is of entries dated
on or after Jan 1 of the year, which includes later years, so the sequence
is not scoped per calendar year. -/
theorem C7_counterexample :
    c7run.1.toOption.map JE.entryNumber = some "JE-2024-000002" ∧
    (staleState.entries.filter (fun e => e.date.y = 2024)).length = 0 ∧
    "JE-2024-000002" ≠ mkEntryNumber 2024 (0 + 1) := by
  norm_num +decide [Except.toOption, Option.isSome, List.filter_cons, List.filter_nil, createJournalEntry, sumDebits, sumCredits, jeSave, jeValidate, jeBalanceHook, genEntryNumber, countOnOrAfterJan1, postGL, mkRows, mkRow, previousBalance, latestActive, keyLt, lineDelta, State.empty, c7run, backdatedED, staleState,
    e2025, cashLine, revLine]

/-- C9 (counterexample): account 1500 has a row dated exactly on the ledger
start date with nonzero `debit − credit` (+5), yet — because a second
boundary row of −5 cancels it — `getAccountLedger`'s closing balance equals
the account's aggregate balance through the end date, refuting the claim's
"for every account having such a boundary row the closing balance
differs". -/
theorem C9_counterexample :
    (c9s.ledger.filter (fun r => r.accountCode = "1500" ∧ r.date = ⟨2024, 6, 15⟩ ∧
        r.status = GLStatus.Active)).map (fun r => r.debit - r.credit) = [5, -5] ∧
    ((5 : ℚ) ≠ 0) ∧
    (getAccountLedger "1500" (some ⟨2024, 6, 15⟩) (some ⟨2024, 6, 15⟩) c9s.ledger).closingBalance =
      (getAccountBalance "1500" ⟨2024, 6, 15⟩ c9s.ledger).balance := by
  norm_num +decide [Except.toOption, Option.isSome, List.filter_cons, List.filter_nil, createJournalEntry, sumDebits, sumCredits, jeSave, jeValidate, jeBalanceHook, genEntryNumber, countOnOrAfterJan1, postGL, mkRows, mkRow, previousBalance, latestActive, keyLt, lineDelta, State.empty, c9s, c9ED1, c9ED2, c9LineA, c9LineB,
    getAccountLedger, getAccountBalance, sortByKey, List.insertionSort,
    List.orderedInsert]

/-- C10 (counterexample): the reversal entry is dated at the reversal time
2024-07-10, not at the original entry's date 2024-06-15 — but a report as of
2024-06-30 (covering the original date, not the reversal time) shows a Cash
balance of 0, not the original 100 the claim says it still includes: the
original rows were marked Reversed and are filtered out. -/
theorem C10_counterexample :
    reverseRun.1.toOption.map JE.date = some ⟨2024, 7, 10⟩ ∧
    ((⟨2024, 7, 10⟩ : Date) ≠ ⟨2024, 6, 15⟩) ∧
    getAccountBalance "1000" ⟨2024, 6, 30⟩ sReversed.ledger =
      { totalDebit := 0, totalCredit := 0, balance := 0 } ∧
    ((0 : ℚ) ≠ 100) := by
  norm_num +decide [Except.toOption, Option.isSome, List.filter_cons, List.filter_nil, createJournalEntry, sumDebits, sumCredits, jeSave, jeValidate, jeBalanceHook, genEntryNumber, countOnOrAfterJan1, postGL, mkRows, mkRow, previousBalance, latestActive, keyLt, lineDelta, State.empty, sReversed, reverseRun,
    reverseJournalEntry, jeReverse, swapLine, markRowsReversed, sPosted, saleRun,
    saleED, cashLine, revLine, List.find?, getAccountBalance,
    BalanceResult.mk.injEq]

/-- C6: `createJournalEntry` raises the "not balanced" validation error
exactly when `|sum of debits − sum of credits| > 0.01`; on that error the
state is unchanged (no write); the concrete input `[{debit:100},{credit:99}]`
is rejected with the balance error and `[{debit:100},{credit:100}]` is
accepted. -/
theorem C6_balance_validation :
    (∀ (ed : EntryData) (userId : String) (now : Date) (s : State),
      (isNotBalancedErr (createJournalEntry ed userId now s).1 = true ↔
        |sumDebits ed.lines - sumCredits ed.lines| > 1/100) ∧
      (∀ err, (createJournalEntry ed userId now s).1 = Except.error err →
        (createJournalEntry ed userId now s).2 = s)) ∧
    isNotBalancedErr (createJournalEntry rejectED "u1" ⟨2024, 6, 15⟩ State.empty).1 = true ∧
    (createJournalEntry saleED "u1" ⟨2024, 6, 15⟩ State.empty).1.toOption.isSome = true := by
  refine ⟨fun ed userId now s =>
    ⟨⟨notBalanced_fwd ed userId now s, notBalanced_bwd ed userId now s⟩,
     createJE_error_state ed userId now s⟩, ?_, ?_⟩
  · exact notBalanced_bwd rejectED "u1" ⟨2024, 6, 15⟩ State.empty
      (by norm_num [rejectED, sumDebits, sumCredits, cashLine, revLine])
  · norm_num +decide [Except.toOption, Option.isSome, List.filter_cons, List.filter_nil,
      createJournalEntry, sumDebits, sumCredits, jeSave, jeValidate, jeBalanceHook,
      genEntryNumber, countOnOrAfterJan1, postGL, mkRows, mkRow, previousBalance,
      latestActive, keyLt, lineDelta, State.empty, saleED, cashLine, revLine]

/-- C7 (amended): the number assigned to an entry whose `entryNumber` is
empty is `JE-<year>-<pad6(seq)>` where `year` is the entry date's calendar
year and `seq` is one plus the count of **all** already-stored journal
entries (any tenant, any status) dated on or after January 1 of that year —
a count that also includes entries of later calendar years. -/
theorem C7_amended (ed : EntryData) (userId : String) (now : Date) (s : State) (e : JE)
    (hnum : ed.entryNumber = "")
    (h : (createJournalEntry ed userId now s).1 = Except.ok e) :
    e.entryNumber = mkEntryNumber ed.date.y (countOnOrAfterJan1 s.entries ed.date.y + 1) := by
  simp only [createJournalEntry] at h
  split at h
  · exact Except.noConfusion h
  · split at h
    · exact Except.noConfusion h
    · rename_i saved s₁ heq
      injection h with h'
      subst h'
      have hres := jeSave_entryNumber heq hnum
      exact hres

/-- C7 witness: the sale entry created in the empty database receives
`JE-2024-000001`, i.e. sequence `0 + 1` for year 2024. -/
theorem C7_amended_witness :
    saleSaved.entryNumber =
      mkEntryNumber saleED.date.y (countOnOrAfterJan1 State.empty.entries saleED.date.y + 1) :=
  C7_amended saleED "u1" ⟨2024, 6, 15⟩ State.empty saleSaved (by norm_num [saleED])
    (by norm_num +decide [Except.toOption, Option.isSome, List.filter_cons, List.filter_nil,
      createJournalEntry, sumDebits, sumCredits, jeSave, jeValidate, jeBalanceHook,
      genEntryNumber, countOnOrAfterJan1, postGL, mkRows, mkRow, previousBalance,
      latestActive, keyLt, lineDelta, State.empty, saleED, cashLine, revLine, saleSaved])

/-- C9 (amended): with a start date `sd` and an end date `e ≥ sd`, the
closing balance reported by `getAccountLedger` equals the account's
aggregate balance through `e` **plus** the net of the Active rows dated
exactly `sd` — the boundary rows are counted both in the opening balance
(`date ≤ sd`) and in the range walk (`date ≥ sd`), so the closing balance
differs from the aggregate exactly when that boundary net is nonzero. -/
theorem C9_amended (code : String) (sd e : Date) (ledger : List GLRow) (h : sd ≤ e) :
    (getAccountLedger code (some sd) (some e) ledger).closingBalance =
      (getAccountBalance code e ledger).balance +
      ((ledger.filter (fun r => r.accountCode = code ∧ r.status = GLStatus.Active ∧
          r.date = sd)).map (fun r => r.debit - r.credit)).sum := by
  simp only [getAccountLedger, getAccountBalance]
  rw [foldl_net, sortByKey_map_sum, sum_sub_net, sum_sub_net]
  rw [filter_map_sum, filter_map_sum, filter_map_sum, filter_map_sum]
  rw [← sum_map_add, ← sum_map_add]
  apply sum_map_congr
  intro r
  simp only [decide_eq_true_eq, Option.mem_def, Option.some.injEq, forall_eq']
  exact boundary_weight code sd e h r

/-- C9 witness: the amended identity evaluated on the double-entry scenario
of the counterexample, with start date equal to end date 2024-06-15. -/
theorem C9_amended_witness :
    (getAccountLedger "1500" (some ⟨2024, 6, 15⟩) (some ⟨2024, 6, 15⟩) c9s.ledger).closingBalance =
      (getAccountBalance "1500" ⟨2024, 6, 15⟩ c9s.ledger).balance +
      ((c9s.ledger.filter (fun r => r.accountCode = "1500" ∧ r.status = GLStatus.Active ∧
          r.date = ⟨2024, 6, 15⟩)).map (fun r => r.debit - r.credit)).sum :=
  C9_amended "1500" ⟨2024, 6, 15⟩ ⟨2024, 6, 15⟩ c9s.ledger (Date.le_refl _)

/-- C10 (amended): a successful reversal is dated at the reversal time
`now`, not at the original entry's date; and because the original entry's
ledger rows are simultaneously marked Reversed, an Active-rows report with
cutoff before `now` contains neither the original entry's rows nor the
reversal's rows — the entry simply disappears from such reports instead of
appearing without an offset. -/
theorem C10_amended (entryId : Nat) (userId : String) (now asOf : Date) (s : State)
    (rev : JE) (s' : State)
    (h : reverseJournalEntry entryId userId now false s = (Except.ok rev, s'))
    (hnow : ¬ now ≤ asOf)
    (hfresh : ∀ r ∈ s.ledger, r.journalEntry < s.nextId) :
    rev.date = now ∧
    (∀ r ∈ s'.ledger, r.journalEntry = entryId → r.status = GLStatus.Reversed) ∧
    (∀ r ∈ s'.ledger, r.date ≤ asOf → r.status = GLStatus.Active →
        r.journalEntry ≠ entryId ∧ r.journalEntry ≠ rev.id) := by
  unfold reverseJournalEntry at h
  split at h
  · injection h with h₁ h₂
    exact Except.noConfusion h₁
  · rename_i entry hfind
    split at h
    · injection h with h₁ h₂
      exact Except.noConfusion h₁
    · rename_i reversal s₁ heq
      rw [if_neg (by simp)] at h
      injection h with h₁ h₂
      injection h₁ with h₁
      subst h₁
      obtain ⟨hdate, hid, hlines, hled⟩ := jeReverse_ok heq
      subst h₂
      refine ⟨hdate, ?_, ?_⟩
      · intro r hr hj
        exact (markRows_mem hr).1 hj
      · intro r hr hdle hact
        have hmm := markRows_mem hr
        constructor
        · intro hj
          have := hmm.1 hj
          rw [this] at hact
          exact GLStatus.noConfusion hact
        · intro hj
          by_cases hje : r.journalEntry = entryId
          · have := hmm.1 hje
            rw [this] at hact
            exact GLStatus.noConfusion hact
          · have hmem : r ∈ postGL reversal s₁.ledger := hmm.2 hje
            unfold postGL at hmem
            rcases List.mem_append.mp hmem with hold | hnew
            · rw [hled] at hold
              have := hfresh r hold
              rw [hj, hid] at this
              exact absurd this (lt_irrefl _)
            · have := mkRows_mem hnew
              rw [this.1, hdate] at hdle
              exact hnow hdle

/-- C10 witness: the reversal of the posted sale, observed as of 2024-06-30,
instantiating the amended theorem at the concrete scenario. -/
theorem C10_amended_witness : revSaved.date = ⟨2024, 7, 10⟩ := by
  have h1 : reverseRun.1 = Except.ok revSaved := by
    norm_num +decide [Except.toOption, Option.isSome, List.filter_cons, List.filter_nil,
      reverseRun, reverseJournalEntry, jeReverse, swapLine, markRowsReversed, sPosted,
      saleRun, createJournalEntry, sumDebits, sumCredits, jeSave, jeValidate,
      jeBalanceHook, genEntryNumber, countOnOrAfterJan1, postGL, mkRows, mkRow,
      previousBalance, latestActive, keyLt, lineDelta, State.empty, saleED, cashLine,
      revLine, List.find?, revSaved]
  have h : reverseJournalEntry 0 "u2" ⟨2024, 7, 10⟩ false sPosted =
      (Except.ok revSaved, sReversed) := by
    calc reverseRun = (reverseRun.1, reverseRun.2) := rfl
      _ = (Except.ok revSaved, sReversed) := by rw [h1]; rfl
  have hfresh : ∀ r ∈ sPosted.ledger, r.journalEntry < sPosted.nextId := by
    norm_num +decide [sPosted, saleRun, createJournalEntry, sumDebits, sumCredits,
      jeSave, jeValidate, jeBalanceHook, genEntryNumber, countOnOrAfterJan1, postGL,
      mkRows, mkRow, previousBalance, latestActive, keyLt, lineDelta, State.empty,
      saleED, cashLine, revLine]
  exact (C10_amended 0 "u2" ⟨2024, 7, 10⟩ ⟨2024, 6, 30⟩ sPosted revSaved sReversed
    h (by decide) hfresh).1

/-- C2 (amended): for a ledger produced by posting journal entries that are
each **exactly** balanced, the trial balance reports `isBalanced = true`,
each listed account has its net in exactly one column, and zero-net accounts
are dropped; with only the per-entry 0.01 tolerance the claim fails, because
tolerated imbalances can accumulate past the 0.01 trial-balance threshold. -/
theorem C2_amended (es : List JE) (asOf : Date)
    (hbal : ∀ e ∈ es, sumDebits e.lines = sumCredits e.lines) :
    (getTrialBalance asOf (postSeq es)).isBalanced = true ∧
    (∀ a ∈ (getTrialBalance asOf (postSeq es)).accounts,
        (a.debit > 0 ∧ a.credit = 0) ∨ (a.credit > 0 ∧ a.debit = 0)) := by
  constructor
  · simp only [getTrialBalance]
    rw [decide_eq_true_eq]
    have hnet :
        (((tbGroups ((postSeq es).filter
            (fun r => r.date ≤ asOf ∧ r.status = GLStatus.Active))).filterMap tbProject).map
          TBAccount.debit).sum -
        (((tbGroups ((postSeq es).filter
            (fun r => r.date ≤ asOf ∧ r.status = GLStatus.Active))).filterMap tbProject).map
          TBAccount.credit).sum = 0 := by
      rw [tbProject_net]
      unfold tbGroups
      rw [tbGroups_net]
      unfold postSeq
      rw [postSeq_tb_net asOf es [] hbal]
      simp
    rw [hnet]
    norm_num
  · intro a ha
    simp only [getTrialBalance] at ha
    rcases List.mem_filterMap.mp ha with ⟨g, hg, hpg⟩
    exact tbProject_onecol hpg


/-- C2 witness: the trial balance over the posted sale entry is balanced. -/
theorem C2_amended_witness :
    (getTrialBalance ⟨2024, 12, 31⟩ (postSeq [saleSaved])).isBalanced = true :=
  (C2_amended [saleSaved] ⟨2024, 12, 31⟩
    (by norm_num [saleSaved, sumDebits, sumCredits, cashLine, revLine])).1

/-- C1 (amended): `postToGeneralLedger` stores, for every line, the balance
`previousBalance + debit − credit` for Asset/Expense lines but
`previousBalance + credit − debit` for Liability/Equity/Revenue lines, with
`previousBalance` looked up from the most recent Active row of the account
code (no tenant filter); consequently, for a ledger built by posting entries
in non-decreasing date order where no entry touches the same account twice,
replaying each account's rows in order and accumulating the
**category-aware** delta from 0 reproduces every stored balance. -/
theorem C1_amended :
    (∀ (entry : JE) (L : List GLRow) (idx : Nat) (l : Line),
      (mkRow entry L idx l).balance = previousBalance l.accountCode L + lineDelta l) ∧
    (∀ (es : List JE),
      List.Pairwise (fun a b => a.date ≤ b.date) es →
      (∀ e ∈ es, (e.lines.map Line.accountCode).Nodup) →
      ∀ code, replayChk 0 (rowsFor code (postSeq es)) = true) := by
  constructor
  · intro entry L idx l
    rfl
  · intro es hp hnd code
    have hInv : LedgerInv [] :=
      ⟨fun r hr => absurd hr (List.not_mem_nil r), List.Pairwise.nil,
       fun r hr => absurd hr (List.not_mem_nil r), fun _ => rfl⟩
    have := postSeq_inv es [] hInv (fun r hr => absurd hr (List.not_mem_nil r)) hp hnd
    exact this.2.2.2 code

/-- C1 witness: posting the sale entry twice produces Cash rows with stored
balances 100 and 200, and the replay check confirms them. -/
theorem C1_amended_witness :
    replayChk 0 (rowsFor "1000" (postSeq [saleSaved, saleSaved])) = true :=
  C1_amended.2 [saleSaved, saleSaved]
    (by simp [Date.le_refl])
    (by intro e he; norm_num +decide [saleSaved, cashLine, revLine] at he ⊢ <;> simp_all)
    "1000"

/-- C6 witness: at the concrete rejected input the balance error is raised
and the state is unchanged, by the C6 theorem itself. -/
theorem C6_balance_validation_witness :
    (createJournalEntry rejectED "u1" ⟨2024, 6, 15⟩ State.empty).2 = State.empty := by
  obtain ⟨d, c, h⟩ := (isNotBalancedErr_iff _).mp C6_balance_validation.2.1
  exact (C6_balance_validation.1 rejectED "u1" ⟨2024, 6, 15⟩ State.empty).2
    (Err.notBalanced d c) h

end Acct
